import Mathlib

/-!
Verification of the RNNs repository (notebook RNN_continuous_to_discrete.ipynb)
against its natural-language specification.

The notebook has two parts that the claims are about:

1. A data-generation cell:
     seed = 20
     np.random.seed(seed)
     data = np.random.rand(1000,10)
     labels = np.zeros((1000,10))
     labels[np.where(data>.5)] = 1
   We embed numpy's legacy RandomState (the MT19937 generator together with
   its double-precision sampling routine) exactly: every generated double
   is a dyadic rational k / 2^53, which we represent in ℚ.  The cell is
   embedded parameterized by (seed, batch_size, seq_len); the notebook runs
   it at (20, 1000, 10).

2. A graph-construction cell building a recurrent classifier and its
   training objective:
     rnn_outputs, states = tf.nn.dynamic_rnn(cell, X, ...)
     for i in range(0,10):
         curr_state = rnn_outputs[:,i,:]
         logits = tf.layers.dense(states, n_outputs)
         xentropy = tf.nn.sparse_softmax_cross_entropy_with_logits(labels=y, logits=logits)
     cross_entropy = tf.nn.softmax_cross_entropy_with_logits(logits=rnn_outputs, labels=y)
     cross_entropy = tf.reduce_sum(cross_entropy)
     minimize = optimizer.minimize(cross_entropy)
   We embed the loss aggregation over the per-position cross-entropy matrix,
   the dataflow of the graph-building cell, and (modelled from the spec,
   which declares the classifier unrealized in the source) the per-timestep
   forward pass of the classifier.
-/

set_option maxRecDepth 100000

namespace RNNs

/-! ## Mersenne Twister (numpy legacy RandomState)

Model of the MT19937 generator exactly as numpy's legacy RandomState runs it:
a key of 624 32-bit words plus a read position.  All words are Nat values
kept below 2^32 by reduction modulo 2^32, mirroring C uint32 arithmetic. -/

/-- Reduction modulo 2^32, the semantics of C uint32 arithmetic used by the
generator. -/
def u32 (x : ℕ) : ℕ := x % 4294967296

/-- State of numpy's legacy RandomState: the MT19937 key (624 words) and the
current read position in it. -/
structure MTState where
  key : List ℕ
  pos : ℕ

/-- Tail of the MT19937 seeding recurrence
mt[i] = (1812433253 * (mt[i-1] xor (mt[i-1] >> 30)) + i) mod 2^32,
producing the words at indices i, i+1, ... given the previous word. -/
def mtInitAux : ℕ → ℕ → ℕ → List ℕ
  | 0, _, _ => []
  | fuel+1, prev, i =>
      let cur := u32 (1812433253 * (prev ^^^ (prev >>> 30)) + i)
      cur :: mtInitAux fuel cur (i+1)

/-- Embeds np.random.seed(seed): MT19937 init_genrand.  The key is
mt[0] = seed mod 2^32 followed by 623 words of the seeding recurrence, and the
position is 624 so that the first draw triggers a twist. -/
def npRandomSeed (seed : ℕ) : MTState :=
  let m0 := u32 seed
  ⟨m0 :: mtInitAux 623 m0 1, 624⟩

/-- One step of the MT19937 twist, updating the key in place at index kk:
y  = (mt[kk] and 0x80000000) or (mt[(kk+1) mod 624] and 0x7fffffff)
mt[kk] = mt[(kk+397) mod 624] xor (y >> 1) xor (if y odd then 0x9908b0df else 0).
Reads go through the partially updated key, exactly as the C code updates the
array in place. -/
def twistStep (key : List ℕ) (kk : ℕ) : List ℕ :=
  let y := (key.getD kk 0 &&& 2147483648) ||| (key.getD ((kk+1) % 624) 0 &&& 2147483647)
  let v := key.getD ((kk + 397) % 624) 0 ^^^ (y >>> 1) ^^^ (if y % 2 = 1 then 2567483615 else 0)
  key.set kk v

/-- The full MT19937 twist: the in-place update applied at indices 0..623. -/
def twist (key : List ℕ) : List ℕ := (List.range 624).foldl twistStep key

/-- The MT19937 tempering of one 32-bit word:
y = y xor (y >> 11); y = y xor ((y << 7) and 0x9d2c5680);
y = y xor ((y << 15) and 0xefc60000); y = y xor (y >> 18),
reduced to uint32 range. -/
def temper (y0 : ℕ) : ℕ :=
  let y1 := y0 ^^^ (y0 >>> 11)
  let y2 := y1 ^^^ ((y1 <<< 7) &&& 2636928640)
  let y3 := y2 ^^^ ((y2 <<< 15) &&& 4022730752)
  u32 (y3 ^^^ (y3 >>> 18))

/-- Embeds rk_random: draw one tempered 32-bit word, twisting the key first
when the read position has reached 624. -/
def rk_random (st : MTState) : ℕ × MTState :=
  if st.pos ≥ 624 then
    let key := twist st.key
    (temper (key.getD 0 0), ⟨key, 1⟩)
  else
    (temper (st.key.getD st.pos 0), ⟨st.key, st.pos + 1⟩)

/-- Embeds rk_double, numpy's uniform [0,1) double sampler:
a = rk_random >> 5, b = rk_random >> 6, result (a * 2^26 + b) / 2^53.
Every double produced this way is the exact rational
(a * 67108864 + b) / 9007199254740992, which Rat.divInt computes. -/
def rk_double (st : MTState) : ℚ × MTState :=
  let p1 := rk_random st
  let p2 := rk_random p1.2
  (Rat.divInt ((p1.1 >>> 5) * 67108864 + (p2.1 >>> 6) : ℕ) 9007199254740992, p2.2)

/-- Draw n consecutive doubles, threading the generator state. -/
def drawRow : ℕ → MTState → List ℚ × MTState
  | 0, st => ([], st)
  | n+1, st =>
      let p := rk_double st
      let rest := drawRow n p.2
      (p.1 :: rest.1, rest.2)

/-- Embeds np.random.rand(rows, cols): a rows × cols matrix of uniform [0,1)
doubles, filled row-major (C order), threading the generator state. -/
def npRandomRand : ℕ → ℕ → MTState → List (List ℚ) × MTState
  | 0, _, st => ([], st)
  | r+1, c, st =>
      let row := drawRow c st
      let rest := npRandomRand r c row.2
      (row.1 :: rest.1, rest.2)

/-! ## The data-generation cell -/

/-- Embeds np.zeros((rows, cols)): a rows × cols matrix of float zeros. -/
def npZeros (rows cols : ℕ) : List (List ℚ) :=
  List.replicate rows (List.replicate cols 0)

/-- Embeds the fancy-indexing assignment labels[np.where(data > .5)] = 1:
every position of labels whose corresponding data entry is strictly greater
than 1/2 is overwritten with 1; all other positions keep their value.
(Rat.divInt 1 2 is the float literal .5 of the source.) -/
def setWhereGtHalf (data labels : List (List ℚ)) : List (List ℚ) :=
  List.zipWith
    (fun drow lrow => List.zipWith (fun d l => if Rat.divInt 1 2 < d then 1 else l) drow lrow)
    data labels

/-- The data-generation cell as a pure function of seed and shape: reseed the
generator, draw the data matrix, build the labels from zeros by the
thresholding assignment.  This is the Sampler generate contract of the spec;
the notebook runs it at seed 20 and shape (1000, 10). -/
def generate (seed batch_size seq_len : ℕ) : List (List ℚ) × List (List ℚ) :=
  let st := npRandomSeed seed
  let data := (npRandomRand batch_size seq_len st).1
  let labels := setWhereGtHalf data (npZeros batch_size seq_len)
  (data, labels)

/-- The data-generation cell with the process-global RandomState threaded
explicitly: np.random.seed(seed) overwrites the incoming global state w, the
draws advance the freshly seeded state, and the advanced state is the global
state after the cell. -/
def dataGenCell (w : MTState) (seed batch_size seq_len : ℕ) :
    (List (List ℚ) × List (List ℚ)) × MTState :=
  let st := npRandomSeed seed
  let res := npRandomRand batch_size seq_len st
  let data := res.1
  let labels := setWhereGtHalf data (npZeros batch_size seq_len)
  ((data, labels), res.2)

/-! ## The Sampler component of the spec -/

/-- Modelled from the spec: the error taxonomy of the design (section 7); the
source notebook has no failure handling, so the error kind exists only in the
spec. -/
inductive SamplerError
  | InvalidArgument
deriving DecidableEq

/-- Modelled from the spec: the Sampler contract
generate(batch_size, seq_len, seed) with validation of the size arguments,
absent from the source.  Non-positive batch_size or seq_len fails with
InvalidArgument; any other input succeeds with the output of the
data-generation cell. -/
def generateChecked (batch_size seq_len : ℤ) (seed : ℕ) :
    Except SamplerError (List (List ℚ) × List (List ℚ)) :=
  if batch_size ≤ 0 ∨ seq_len ≤ 0 then Except.error SamplerError.InvalidArgument
  else Except.ok (generate seed batch_size.toNat seq_len.toNat)

/-- Modelled from the spec: the Sampler as a side-effect-free component, the
seed being a caller-supplied argument rather than global state.  Threading a
world (the global RandomState) through it, it returns the pure output and
leaves the world untouched. -/
def samplerRun (w : MTState) (seed batch_size seq_len : ℕ) :
    (List (List ℚ) × List (List ℚ)) × MTState :=
  (generate seed batch_size seq_len, w)

/-! ## The training loss of the graph cell

The graph cell computes
  cross_entropy = tf.nn.softmax_cross_entropy_with_logits(logits=rnn_outputs, labels=y)
  cross_entropy = tf.reduce_sum(cross_entropy)
The first line yields a per-position cross-entropy matrix of shape
(batch, steps); we take that matrix as the input and embed the aggregation
applied to it. -/

/-- Embeds tf.reduce_sum over all axes of a rank-2 tensor: the sum of every
entry. -/
def reduce_sum (m : List (List ℚ)) : ℚ := (m.map List.sum).sum

/-- Embeds the source line cross_entropy = tf.reduce_sum(cross_entropy):
the training loss fed to optimizer.minimize, as a function of the
per-position cross-entropy matrix. -/
def trainingLoss (xent : List (List ℚ)) : ℚ := reduce_sum xent

/-- Number of positions in the batch: entries of the per-position matrix. -/
def positionCount (xent : List (List ℚ)) : ℕ := (xent.map List.length).sum

/-- Modelled from the spec: the per-position mean cross-entropy the spec
designates as the loss (section 4.2), absent from the source, which sums. -/
def meanTrainingLoss (xent : List (List ℚ)) : ℚ :=
  reduce_sum xent / positionCount xent

/-! ## The classifier forward pass

The spec (section 4.2) declares the Sequence Classifier unrealized in the
source: the source builds rnn_outputs = tf.nn.dynamic_rnn(cell, X, ...) with
a BasicRNNCell of 7 relu units, but the per-timestep readout exists only as
the declared intent.  We embed the recurrent unrolling of the source's
dynamic_rnn call over exact rationals and, modelled from the spec, the
per-timestep readout (projection to 2 classes, higher-probability class). -/

/-- Dot product of two equal-length vectors. -/
def dot (xs ys : List ℚ) : ℚ := (List.zipWith (· * ·) xs ys).sum

/-- Matrix-vector product, one dot product per matrix row. -/
def matVec (m : List (List ℚ)) (v : List ℚ) : List ℚ := m.map (fun row => dot row v)

/-- Embeds tf.nn.relu on one scalar. -/
def relu (x : ℚ) : ℚ := max x 0

/-- Weights of tf.contrib.rnn.BasicRNNCell(num_units=n_neurons,
activation=tf.nn.relu): input weights (n_neurons × n_inputs), recurrent
weights (n_neurons × n_neurons) and bias (n_neurons). -/
structure BasicRNNCell where
  Wx : List (List ℚ)
  Wh : List (List ℚ)
  b : List ℚ

/-- One step of the BasicRNNCell: h2 = relu(Wx x + Wh h + b). -/
def cellStep (c : BasicRNNCell) (h x : List ℚ) : List ℚ :=
  List.zipWith (fun s bi => relu (s + bi))
    (List.zipWith (· + ·) (matVec c.Wx x) (matVec c.Wh h)) c.b

/-- Embeds the unrolling performed by tf.nn.dynamic_rnn for one sequence:
the cell is applied once per input step, each step's hidden state is emitted
and carried to the next step. -/
def dynamic_rnn (c : BasicRNNCell) : List ℚ → List (List ℚ) → List (List ℚ)
  | _, [] => []
  | h, x :: xs =>
      let h2 := cellStep c h x
      h2 :: dynamic_rnn c h2 xs

/-- Weights of a dense projection layer (tf.layers.dense). -/
structure DenseLayer where
  W : List (List ℚ)
  b : List ℚ

/-- Embeds tf.layers.dense: affine map W h + b. -/
def dense (d : DenseLayer) (h : List ℚ) : List ℚ :=
  List.zipWith (· + ·) (matVec d.W h) d.b

/-- Modelled from the spec: inference takes the higher-probability class at
each position; for the 2-class logits this is 1 exactly when the class-1
logit exceeds the class-0 logit. -/
def argmaxBinary (logits : List ℚ) : ℕ :=
  if logits.getD 0 0 < logits.getD 1 0 then 1 else 0

/-- Modelled from the spec: the classifier forward pass in per-timestep mode
(section 4.2): each sequence of the batch is unrolled through the recurrent
cell from the zero hidden state, and every step's hidden state is projected
to 2 classes and read out as a binary label. -/
def classifierForward (c : BasicRNNCell) (d : DenseLayer)
    (batch : List (List (List ℚ))) : List (List ℕ) :=
  batch.map (fun seq =>
    (dynamic_rnn c (List.replicate c.b.length 0) seq).map (fun h => argmaxBinary (dense d h)))

/-! ## Dataflow of the graph-construction cell

To settle which tensors feed the minimized objective we embed the
graph-construction cell as a straight-line program over Python variables
holding graph expressions.  Assignment evaluates its right-hand side against
the current bindings immediately (Python semantics), so rebinding a variable
later never changes an expression already built. -/

/-- The Python variables bound in the graph-construction cell. -/
inductive VarName
  | X | y | rnn_outputs | states | curr_state | logits | xentropy | cross_entropy
deriving DecidableEq, BEq

/-- Graph expressions built by the cell.  A node records the op and its
operand expressions; undef stands for reading an unbound variable. -/
inductive TExpr
  | placeholderX
  | placeholderY
  | rnnOutputs (x : TExpr)
  | rnnStates (x : TExpr)
  | sliceStep (e : TExpr) (i : ℕ)
  | denseOp (e : TExpr) (units : ℕ)
  | sparseXent (lbl logit : TExpr)
  | softmaxXent (logit lbl : TExpr)
  | reduceSumOp (e : TExpr)
  | undef
deriving DecidableEq

/-- Variable environment of the cell: latest binding wins. -/
def Env := List (VarName × TExpr)

/-- Read a variable: the most recent binding, undef when never bound. -/
def readVar (env : Env) (n : VarName) : TExpr :=
  ((env.find? (fun p => p.1 == n)).map Prod.snd).getD TExpr.undef

/-- Bind a variable to an expression. -/
def bindVar (env : Env) (n : VarName) (e : TExpr) : Env := (n, e) :: env

/-- One iteration of the source loop for i in range(0,10):
curr_state = rnn_outputs[:,i,:]; logits = tf.layers.dense(states, n_outputs);
xentropy = tf.nn.sparse_softmax_cross_entropy_with_logits(labels=y, logits=logits). -/
def loopBody (env : Env) (i : ℕ) : Env :=
  let env1 := bindVar env VarName.curr_state (TExpr.sliceStep (readVar env VarName.rnn_outputs) i)
  let env2 := bindVar env1 VarName.logits (TExpr.denseOp (readVar env1 VarName.states) 10)
  bindVar env2 VarName.xentropy
    (TExpr.sparseXent (readVar env2 VarName.y) (readVar env2 VarName.logits))

/-- The graph-construction cell, assignment by assignment, with the
10-iteration loop included or removed.  The duplicated dynamic_rnn
assignment of the source is kept. -/
def buildModelCell (withLoop : Bool) : Env :=
  let env := bindVar [] VarName.X TExpr.placeholderX
  let env := bindVar env VarName.y TExpr.placeholderY
  let env := bindVar env VarName.rnn_outputs (TExpr.rnnOutputs (readVar env VarName.X))
  let env := bindVar env VarName.states (TExpr.rnnStates (readVar env VarName.X))
  let env := bindVar env VarName.rnn_outputs (TExpr.rnnOutputs (readVar env VarName.X))
  let env := bindVar env VarName.states (TExpr.rnnStates (readVar env VarName.X))
  let env := if withLoop then (List.range 10).foldl loopBody env else env
  let env := bindVar env VarName.cross_entropy
    (TExpr.softmaxXent (readVar env VarName.rnn_outputs) (readVar env VarName.y))
  bindVar env VarName.cross_entropy (TExpr.reduceSumOp (readVar env VarName.cross_entropy))

/-- The expression handed to optimizer.minimize: the final binding of
cross_entropy. -/
def minimizeTarget (withLoop : Bool) : TExpr :=
  readVar (buildModelCell withLoop) VarName.cross_entropy

/-- Does the expression contain any node built only inside the loop (a dense
projection or a sparse cross-entropy)? -/
def TExpr.hasLoopOp : TExpr → Bool
  | TExpr.placeholderX => false
  | TExpr.placeholderY => false
  | TExpr.rnnOutputs x => x.hasLoopOp
  | TExpr.rnnStates x => x.hasLoopOp
  | TExpr.sliceStep e _ => e.hasLoopOp
  | TExpr.denseOp _ _ => true
  | TExpr.sparseXent _ _ => true
  | TExpr.softmaxXent a b => a.hasLoopOp || b.hasLoopOp
  | TExpr.reduceSumOp e => e.hasLoopOp
  | TExpr.undef => false

/-! ## Lemmas about the generator and the data cell -/

theorem temper_lt (y : ℕ) : temper y < 4294967296 :=
  Nat.mod_lt _ (by norm_num)

theorem rk_random_fst_lt (st : MTState) : (rk_random st).1 < 4294967296 := by
  unfold rk_random
  split <;> exact temper_lt _

theorem rk_double_eq (st : MTState) :
    rk_double st =
      (Rat.divInt (((rk_random st).1 >>> 5) * 67108864 + ((rk_random (rk_random st).2).1 >>> 6) : ℕ)
        9007199254740992,
       (rk_random (rk_random st).2).2) := rfl

theorem rk_double_mem (st : MTState) : 0 ≤ (rk_double st).1 ∧ (rk_double st).1 < 1 := by
  have h1 : (rk_random st).1 < 4294967296 := rk_random_fst_lt st
  have h2 : (rk_random (rk_random st).2).1 < 4294967296 := rk_random_fst_lt _
  rw [rk_double_eq]
  have ha : (rk_random st).1 >>> 5 < 134217728 := by
    rw [Nat.shiftRight_eq_div_pow]
    omega
  have hb : (rk_random (rk_random st).2).1 >>> 6 < 67108864 := by
    rw [Nat.shiftRight_eq_div_pow]
    omega
  have hnum : ((rk_random st).1 >>> 5) * 67108864 + ((rk_random (rk_random st).2).1 >>> 6)
      < 9007199254740992 := by omega
  rw [Rat.divInt_eq_div]
  constructor
  · positivity
  · rw [div_lt_one (by positivity)]
    exact_mod_cast hnum

theorem drawRow_succ (n : ℕ) (st : MTState) :
    drawRow (n+1) st =
      ((rk_double st).1 :: (drawRow n (rk_double st).2).1, (drawRow n (rk_double st).2).2) := rfl

theorem drawRow_length (n : ℕ) : ∀ st : MTState, (drawRow n st).1.length = n := by
  induction n with
  | zero => intro st; rfl
  | succ n ih =>
      intro st
      rw [drawRow_succ]
      simp [ih]

theorem drawRow_mem (n : ℕ) : ∀ st : MTState, ∀ v ∈ (drawRow n st).1, 0 ≤ v ∧ v < 1 := by
  induction n with
  | zero => intro st v hv; simp [drawRow] at hv
  | succ n ih =>
      intro st v hv
      rw [drawRow_succ] at hv
      rcases List.mem_cons.mp hv with h | h
      · exact h ▸ rk_double_mem st
      · exact ih _ v h

theorem npRandomRand_succ (r c : ℕ) (st : MTState) :
    npRandomRand (r+1) c st =
      ((drawRow c st).1 :: (npRandomRand r c (drawRow c st).2).1,
       (npRandomRand r c (drawRow c st).2).2) := rfl

theorem npRandomRand_length (r c : ℕ) : ∀ st : MTState, (npRandomRand r c st).1.length = r := by
  induction r with
  | zero => intro st; rfl
  | succ r ih =>
      intro st
      rw [npRandomRand_succ]
      simp [ih]

theorem npRandomRand_rows (r c : ℕ) :
    ∀ st : MTState, ∀ row ∈ (npRandomRand r c st).1, row.length = c ∧ ∀ v ∈ row, 0 ≤ v ∧ v < 1 := by
  induction r with
  | zero => intro st row hrow; simp [npRandomRand] at hrow
  | succ r ih =>
      intro st row hrow
      rw [npRandomRand_succ] at hrow
      rcases List.mem_cons.mp hrow with h | h
      · subst h
        exact ⟨drawRow_length c st, drawRow_mem c st⟩
      · exact ih _ row h

theorem getD_replicate_self {α : Type} (x : α) : ∀ (n t : ℕ), (List.replicate n x).getD t x = x := by
  intro n
  induction n with
  | zero => intro t; cases t <;> rfl
  | succ n ih =>
      intro t
      cases t with
      | zero => rfl
      | succ t => exact ih t

theorem zipWithThreshold_getD (drow : List ℚ) :
    ∀ (lrow : List ℚ) (t : ℕ), t < drow.length → t < lrow.length →
      (List.zipWith (fun d l => if Rat.divInt 1 2 < d then 1 else l) drow lrow).getD t 0
        = if Rat.divInt 1 2 < drow.getD t 0 then 1 else lrow.getD t 0 := by
  induction drow with
  | nil => intro lrow t ht _; simp at ht
  | cons d drow ih =>
      intro lrow t ht hl
      cases lrow with
      | nil => simp at hl
      | cons l lrow =>
          cases t with
          | zero => rfl
          | succ t =>
              simp only [List.zipWith_cons_cons, List.getD_cons_succ]
              exact ih lrow t (by simpa using ht) (by simpa using hl)

theorem setWhereGtHalf_getD (data : List (List ℚ)) :
    ∀ (labels : List (List ℚ)) (i : ℕ), i < data.length → i < labels.length →
      (setWhereGtHalf data labels).getD i []
        = List.zipWith (fun d l => if Rat.divInt 1 2 < d then 1 else l)
            (data.getD i []) (labels.getD i []) := by
  induction data with
  | nil => intro labels i hi _; simp at hi
  | cons drow data ih =>
      intro labels i hi hl
      cases labels with
      | nil => simp at hl
      | cons lrow labels =>
          cases i with
          | zero => rfl
          | succ i =>
              simp only [setWhereGtHalf, List.zipWith_cons_cons, List.getD_cons_succ]
              exact ih labels i (by simpa using hi) (by simpa using hl)

theorem getD_mem {α : Type} (l : List α) (i : ℕ) (d : α) (h : i < l.length) : l.getD i d ∈ l := by
  induction l generalizing i with
  | nil => simp at h
  | cons a l ih =>
      cases i with
      | zero => exact List.mem_cons_self a l
      | succ i => exact List.mem_cons_of_mem a (ih i (by simpa using h))

theorem npZeros_getD (b l i : ℕ) (hi : i < b) :
    (npZeros b l).getD i [] = List.replicate l 0 := by
  unfold npZeros
  induction b generalizing i with
  | zero => simp at hi
  | succ b ih =>
      cases i with
      | zero => rfl
      | succ i => exact ih i (by omega)

theorem generate_data_length (seed b l : ℕ) : (generate seed b l).1.length = b :=
  npRandomRand_length b l _

theorem generate_data_rows (seed b l : ℕ) :
    ∀ row ∈ (generate seed b l).1, row.length = l ∧ ∀ v ∈ row, 0 ≤ v ∧ v < 1 :=
  npRandomRand_rows b l _

/-- Pointwise description of the generated labels, inside the requested
shape: the entry at (i, t) is 1 when the data entry at (i, t) exceeds 1/2
and 0 (the np.zeros initial value) otherwise. -/
theorem generate_labels_getD (seed b l i t : ℕ) (hi : i < b) (ht : t < l) :
    ((generate seed b l).2.getD i []).getD t 0
      = if Rat.divInt 1 2 < ((generate seed b l).1.getD i []).getD t 0 then 1 else 0 := by
  show ((setWhereGtHalf (npRandomRand b l (npRandomSeed seed)).1 (npZeros b l)).getD i []).getD t 0
      = if Rat.divInt 1 2 < ((npRandomRand b l (npRandomSeed seed)).1.getD i []).getD t 0 then 1
        else 0
  have hdl : (npRandomRand b l (npRandomSeed seed)).1.length = b := npRandomRand_length b l _
  have hzl : (npZeros b l).length = b := by simp [npZeros]
  have hrl : ((npRandomRand b l (npRandomSeed seed)).1.getD i []).length = l :=
    (npRandomRand_rows b l _ _ (getD_mem _ i [] (by omega))).1
  rw [setWhereGtHalf_getD _ _ i (by omega) (by omega), npZeros_getD b l i hi,
    zipWithThreshold_getD _ _ t (by omega) (by simpa using ht),
    getD_replicate_self]

/-- Bridge between the float literal .5 of the source and the rational 1/2
used in the spec statements. -/
theorem divInt_one_two : Rat.divInt 1 2 = (1/2 : ℚ) := by
  rw [Rat.divInt_eq_div]
  norm_num

theorem setWhereGtHalf_length (data labels : List (List ℚ)) :
    (setWhereGtHalf data labels).length = min data.length labels.length := by
  simp [setWhereGtHalf]

theorem setWhereGtHalf_rows (lset : ℕ) :
    ∀ data labels : List (List ℚ), (∀ r ∈ data, r.length = lset) →
      (∀ r ∈ labels, r.length = lset) →
      ∀ row ∈ setWhereGtHalf data labels, row.length = lset := by
  intro data
  induction data with
  | nil => intro labels _ _ row hrow; simp [setWhereGtHalf] at hrow
  | cons drow data ih =>
      intro labels hd hl row hrow
      cases labels with
      | nil => simp [setWhereGtHalf] at hrow
      | cons lrow labels =>
          simp only [setWhereGtHalf, List.zipWith_cons_cons] at hrow
          rcases List.mem_cons.mp hrow with h | h
          · subst h
            have h1 : drow.length = lset := hd drow (List.mem_cons_self _ _)
            have h2 : lrow.length = lset := hl lrow (List.mem_cons_self _ _)
            simp [h1, h2]
          · exact ih labels (fun r hr => hd r (List.mem_cons_of_mem _ hr))
              (fun r hr => hl r (List.mem_cons_of_mem _ hr)) row h

/-! ## Claim theorems for the Sampler -/

/-- C1: for every generated batch, every sequence index i and every position
t inside the requested shape, the label entry at (i, t) equals 1 exactly when
the value entry at (i, t) is strictly greater than 0.5.  The labels are given
by the pure deterministic function generate of the seed and the shape. -/
theorem generate_label_iff_half (seed b l i t : ℕ) (hi : i < b) (ht : t < l) :
    ((generate seed b l).2.getD i []).getD t 0 = 1
      ↔ (1/2 : ℚ) < ((generate seed b l).1.getD i []).getD t 0 := by
  rw [generate_labels_getD seed b l i t hi ht, divInt_one_two]
  split_ifs with h
  · exact iff_of_true rfl h
  · exact iff_of_false (by norm_num) h

/-- Witness for C1 at the shape and seed the notebook uses. -/
theorem generate_label_iff_half_witness :
    ((generate 20 1000 10).2.getD 0 []).getD 0 0 = 1
      ↔ (1/2 : ℚ) < ((generate 20 1000 10).1.getD 0 []).getD 0 0 :=
  generate_label_iff_half 20 1000 10 0 0 (by decide) (by decide)

/-- C2: the output of the data-generation cell is independent of the
process-global RandomState it starts from, because np.random.seed(seed)
overwrites that state: two runs with the same seed and the same shape
arguments, from arbitrary prior global states, produce identical
(values, labels) output. -/
theorem dataGenCell_deterministic (w1 w2 : MTState) (seed b l : ℕ) :
    (dataGenCell w1 seed b l).1 = (dataGenCell w2 seed b l).1 := rfl

/-- C4: for positive batch_size and seq_len, the generated values and labels
both have shape exactly (batch_size, seq_len), and every value entry is a
draw of the uniform [0,1) double sampler, in particular lies in [0, 1). -/
theorem generate_shape_range (seed b l : ℕ) (hb : 0 < b) (hl : 0 < l) :
    (generate seed b l).1.length = b ∧
    (generate seed b l).2.length = b ∧
    (∀ row ∈ (generate seed b l).1, row.length = l) ∧
    (∀ row ∈ (generate seed b l).2, row.length = l) ∧
    ∀ row ∈ (generate seed b l).1, ∀ v ∈ row, 0 ≤ v ∧ v < 1 := by
  refine ⟨generate_data_length seed b l, ?_, ?_, ?_, ?_⟩
  · show (setWhereGtHalf (npRandomRand b l (npRandomSeed seed)).1 (npZeros b l)).length = b
    rw [setWhereGtHalf_length, npRandomRand_length]
    simp [npZeros]
  · intro row h
    exact (generate_data_rows seed b l row h).1
  · intro row h
    refine setWhereGtHalf_rows l _ _ ?_ ?_ row h
    · intro r hr
      exact (npRandomRand_rows b l _ r hr).1
    · intro r hr
      rw [List.eq_of_mem_replicate hr]
      simp
  · intro row h
    exact (generate_data_rows seed b l row h).2

/-- Witness for C4 at the shape and seed the notebook uses. -/
theorem generate_shape_range_witness :
    (generate 20 1000 10).1.length = 1000 ∧
    (generate 20 1000 10).2.length = 1000 ∧
    (∀ row ∈ (generate 20 1000 10).1, row.length = 10) ∧
    (∀ row ∈ (generate 20 1000 10).2, row.length = 10) ∧
    ∀ row ∈ (generate 20 1000 10).1, ∀ v ∈ row, 0 ≤ v ∧ v < 1 :=
  generate_shape_range 20 1000 10 (by decide) (by decide)

/-- C5: the checked Sampler generate fails exactly on non-positive size
arguments, always with kind InvalidArgument, and succeeds on every other
input: these are its only error conditions. -/
theorem generateChecked_error_conditions (b l : ℤ) (s : ℕ) :
    (generateChecked b l s = Except.error SamplerError.InvalidArgument ↔ b ≤ 0 ∨ l ≤ 0)
    ∧ ((∃ out, generateChecked b l s = Except.ok out) ↔ 0 < b ∧ 0 < l) := by
  unfold generateChecked
  by_cases h : b ≤ 0 ∨ l ≤ 0
  · rw [if_pos h]
    refine ⟨by simpa using h, ?_⟩
    constructor
    · rintro ⟨out, he⟩
      simp at he
    · intro hc
      omega
  · rw [if_neg h]
    constructor
    · constructor
      · intro he
        simp at he
      · intro hc
        exact absurd hc h
    · exact ⟨fun _ => by omega, fun _ => ⟨_, rfl⟩⟩

/-- C6: the Sampler of the spec, with the seed a caller-supplied argument,
has no side effect beyond its returned pair: it leaves the global RandomState
it is run against untouched, while returning exactly the (values, labels)
output that the source data-generation cell computes from that state. -/
theorem samplerRun_pure (w : MTState) (seed b l : ℕ) :
    (samplerRun w seed b l).2 = w ∧ (samplerRun w seed b l).1 = (dataGenCell w seed b l).1 :=
  ⟨rfl, rfl⟩

/-- C10: every label entry inside the requested shape is exactly 0 or exactly
1: the labels matrix starts as np.zeros and the thresholding assignment only
ever writes 1. -/
theorem generate_labels_binary (seed b l i t : ℕ) (hi : i < b) (ht : t < l) :
    ((generate seed b l).2.getD i []).getD t 0 = 0
      ∨ ((generate seed b l).2.getD i []).getD t 0 = 1 := by
  rw [generate_labels_getD seed b l i t hi ht]
  split_ifs <;> simp

/-- Witness for C10 at the shape and seed the notebook uses. -/
theorem generate_labels_binary_witness :
    ((generate 20 1000 10).2.getD 2 []).getD 3 0 = 0
      ∨ ((generate 20 1000 10).2.getD 2 []).getD 3 0 = 1 :=
  generate_labels_binary 20 1000 10 2 3 (by decide) (by decide)

/-! ## The notebook output at seed 20 -/

/-- Agreement with a printed value to 3 decimal places: v differs from
e/1000 by at most half a unit in the last printed place.  Stated over
Rat.divInt so that it evaluates by kernel reduction. -/
def roundsTo3 (v : ℚ) (e : ℤ) : Prop :=
  Rat.divInt (2*e - 1) 2000 ≤ v ∧ v ≤ Rat.divInt (2*e + 1) 2000

instance (v : ℚ) (e : ℤ) : Decidable (roundsTo3 v e) :=
  inferInstanceAs (Decidable (_ ∧ _))

theorem roundsTo3_abs (v : ℚ) (e : ℤ) (h : roundsTo3 v e) :
    |v - (e : ℚ)/1000| ≤ 1/2000 := by
  obtain ⟨h1, h2⟩ := h
  rw [Rat.divInt_eq_div] at h1 h2
  push_cast at h1 h2
  rw [abs_le]
  constructor <;> linarith

/-- C3: generate(batch_size=1, seq_len=10, seed=20) reproduces the
notebook's printed output for seed 20: the ten values agree with
0.588, 0.898, 0.892, 0.816, 0.036, 0.692, 0.379, 0.519, 0.658, 0.194 to
3 decimals, and the labels are exactly [1,1,1,1,0,1,0,1,1,0]. -/
theorem generate_seed20_notebook :
    (∀ p ∈ List.zip ((generate 20 1 10).1.getD 0 [])
        [(588:ℤ), 898, 892, 816, 36, 692, 379, 519, 658, 194],
      |p.1 - (p.2 : ℚ)/1000| ≤ 1/2000)
    ∧ ((generate 20 1 10).1.getD 0 []).length = 10
    ∧ (generate 20 1 10).2 = [[1,1,1,1,0,1,0,1,1,0]] := by
  refine ⟨?_, by decide, by decide⟩
  have hall : ∀ p ∈ List.zip ((generate 20 1 10).1.getD 0 [])
      [(588:ℤ), 898, 892, 816, 36, 692, 379, 519, 658, 194], roundsTo3 p.1 p.2 := by decide
  intro p hp
  exact roundsTo3_abs p.1 p.2 (hall p hp)

/-! ## Claim theorems for the classifier side -/

/-- C7 counterexample: on the per-position cross-entropy matrix [[2, 2]]
(one sequence, two positions) the source's training loss is 4 while the
per-position mean is 2, so the loss the source minimizes is not the
per-position mean. -/
theorem trainingLoss_ne_mean : trainingLoss [[2, 2]] ≠ meanTrainingLoss [[2, 2]] := by
  norm_num [trainingLoss, reduce_sum, meanTrainingLoss, positionCount]

/-- C7 amended: the training loss cross_entropy = tf.reduce_sum(...) is the
sum of the per-position cross-entropies over all positions of the batch —
equivalently, the number of positions times the per-position mean — rather
than the per-position mean itself. -/
theorem trainingLoss_eq_sum_positions (xent : List (List ℚ)) (h : positionCount xent ≠ 0) :
    trainingLoss xent = (xent.map List.sum).sum
    ∧ trainingLoss xent = (positionCount xent : ℚ) * meanTrainingLoss xent := by
  have hc : (positionCount xent : ℚ) ≠ 0 := Nat.cast_ne_zero.mpr h
  refine ⟨rfl, ?_⟩
  show reduce_sum xent = (positionCount xent : ℚ) * (reduce_sum xent / (positionCount xent : ℚ))
  rw [mul_comm, div_mul_cancel₀ _ hc]

/-- Witness for the amended C7 on a two-position batch. -/
theorem trainingLoss_eq_sum_positions_witness :
    trainingLoss [[2, 2]] = ([[2, 2]].map List.sum).sum
    ∧ trainingLoss [[2, 2]] = (positionCount [[2, 2]] : ℚ) * meanTrainingLoss [[2, 2]] :=
  trainingLoss_eq_sum_positions [[2, 2]] (by decide)

/-- C8: the classifier forward pass in per-timestep mode outputs one binary
label per input position: its output has exactly the shape
(batch_size, seq_len) of the input batch, whatever the cell and projection
weights are. -/
theorem classifierForward_shape (c : BasicRNNCell) (d : DenseLayer)
    (batch : List (List (List ℚ))) (b l : ℕ) (hb : batch.length = b)
    (hl : ∀ seq ∈ batch, seq.length = l) :
    (classifierForward c d batch).length = b
    ∧ ∀ row ∈ classifierForward c d batch, row.length = l := by
  have hunroll : ∀ (h0 : List ℚ) (xs : List (List ℚ)),
      (dynamic_rnn c h0 xs).length = xs.length := by
    intro h0 xs
    induction xs generalizing h0 with
    | nil => rfl
    | cons x xs ih => simp [dynamic_rnn, ih]
  constructor
  · simpa [classifierForward] using hb
  · intro row hrow
    simp only [classifierForward, List.mem_map] at hrow
    obtain ⟨seq, hseq, rfl⟩ := hrow
    rw [List.length_map, hunroll]
    exact hl seq hseq

/-- Witness for C8 on a one-sequence, one-step batch with a one-unit cell. -/
theorem classifierForward_shape_witness :
    (classifierForward ⟨[[1]], [[1]], [0]⟩ ⟨[[1], [0]], [0, 0]⟩ [[[1]]]).length = 1
    ∧ ∀ row ∈ classifierForward ⟨[[1]], [[1]], [0]⟩ ⟨[[1], [0]], [0, 0]⟩ [[[1]]],
        row.length = 1 :=
  classifierForward_shape ⟨[[1]], [[1]], [0]⟩ ⟨[[1], [0]], [0, 0]⟩ [[[1]]] 1 1
    (by decide) (by decide)

/-- C9: the expression handed to optimizer.minimize is built from
rnn_outputs and the label placeholder y alone; the logits and xentropy
tensors bound inside the 10-iteration loop do not feed into it, and building
the graph with the loop removed yields the identical minimized objective. -/
theorem minimizeTarget_loop_independent :
    minimizeTarget true = minimizeTarget false
    ∧ minimizeTarget true
        = TExpr.reduceSumOp
            (TExpr.softmaxXent (TExpr.rnnOutputs TExpr.placeholderX) TExpr.placeholderY)
    ∧ (minimizeTarget true).hasLoopOp = false :=
  ⟨by decide, by decide, by decide⟩

end RNNs
